import Mathlib

/-!
Shallow embedding of `base/lock.cc` (Chromium `Lock` and `AutoUnlock`).

The source wraps a reentrant platform mutex (`lock_`) and keeps a recursion
depth `recursion_count_shadow_` plus debug-only counters
(`acquisition_count_`, `contention_count_`, `recursion_used_`) that exist and
are updated only when `NDEBUG` is not defined.  We model both build
configurations with a boolean flag `dbg` (`true` = instrumented build,
`false` = `NDEBUG` build).

The state is the view of a single modelled thread.  `mutexDepth` is the
reentrant hold depth of the platform mutex held by that thread (`0` = the
thread does not hold it); transient ownership of the mutex by another thread
enters the model only through the oracle bit `otherHolds` passed to the
operations that attempt a non-blocking acquire: when the modelled thread does
not already hold the mutex and `otherHolds` is `true`, `lock_.Try()` fails.
A blocking `lock_.Lock()` always eventually succeeds (after the other thread
releases), which in the model is an unconditional depth increment.

Machine integers: `recursion_count_shadow_` is a signed 32-bit integer in the
source and is modelled as `Int` (signed overflow is undefined behaviour in the
source, so the idealised integer is the faithful model of the defined range);
the two lifetime counters are only ever incremented and are modelled as `Nat`.

`DCHECK` does not modify lock state; each operation that contains one reports
whether it fired as a `Bool` alongside its result.
-/

namespace LockCC

/-- The state of one `Lock` instance as seen by the modelled thread:
the platform mutex hold depth plus the fields of the C++ class. -/
structure Lock where
  mutexDepth : Nat
  recursion_count_shadow_ : Int
  acquisition_count_ : Nat
  contention_count_ : Nat
  recursion_used_ : Bool
  deriving Repr, DecidableEq

/-- The constructor `Lock::Lock()`: zero-initialises every field. -/
def Lock.init : Lock :=
  { mutexDepth := 0
    recursion_count_shadow_ := 0
    acquisition_count_ := 0
    contention_count_ := 0
    recursion_used_ := false }

/-- The result of `lock_.Try()` for the modelled thread: a reentrant
try-acquire succeeds when the thread already holds the mutex, and otherwise
succeeds exactly when no other thread transiently holds it. -/
def mutexTryOk (otherHolds : Bool) (s : Lock) : Bool :=
  decide (0 < s.mutexDepth) || !otherHolds

/-- `Lock::Acquire()`.  `NDEBUG` build (`dbg = false`): `lock_.Lock()` then
`recursion_count_shadow_++`.  Instrumented build (`dbg = true`): first
`lock_.Try()`; on failure `lock_.Lock()` and `contention_count_++`; then
`recursion_count_shadow_++`; if the new count is `1`, `acquisition_count_++`;
else if the new count is `2` and `recursion_used_` is false, set
`recursion_used_` to true. -/
def Lock.Acquire (dbg otherHolds : Bool) (s : Lock) : Lock :=
  if !dbg then
    { s with mutexDepth := s.mutexDepth + 1
             recursion_count_shadow_ := s.recursion_count_shadow_ + 1 }
  else
    let s1 :=
      if mutexTryOk otherHolds s then
        { s with mutexDepth := s.mutexDepth + 1 }
      else
        { s with mutexDepth := s.mutexDepth + 1
                 contention_count_ := s.contention_count_ + 1 }
    let s2 := { s1 with recursion_count_shadow_ := s1.recursion_count_shadow_ + 1 }
    if s2.recursion_count_shadow_ = 1 then
      { s2 with acquisition_count_ := s2.acquisition_count_ + 1 }
    else if s2.recursion_count_shadow_ = 2 ∧ s2.recursion_used_ = false then
      { s2 with recursion_used_ := true }
    else
      s2

/-- `Lock::Release()`: `--recursion_count_shadow_` then `lock_.Unlock()`.
The body is the same in both builds (the debug `DCHECK` is modelled
separately by `Lock.releaseDcheckFails`). -/
def Lock.Release (s : Lock) : Lock :=
  { s with recursion_count_shadow_ := s.recursion_count_shadow_ - 1
           mutexDepth := s.mutexDepth - 1 }

/-- The `DCHECK(0 <= recursion_count_shadow_)` inside `Lock::Release()`,
evaluated after the decrement; present only in the instrumented build. -/
def Lock.releaseDcheckFails (dbg : Bool) (s : Lock) : Bool :=
  dbg && decide (s.recursion_count_shadow_ - 1 < 0)

/-- `Lock::Try()`: `lock_.Try()`; on success `recursion_count_shadow_++`
followed (instrumented build only) by the same `acquisition_count_` /
`recursion_used_` bookkeeping as `Acquire`, returning `true`; on failure
returns `false` with no state change. -/
def Lock.Try (dbg otherHolds : Bool) (s : Lock) : Bool × Lock :=
  if mutexTryOk otherHolds s then
    let s1 := { s with mutexDepth := s.mutexDepth + 1
                       recursion_count_shadow_ := s.recursion_count_shadow_ + 1 }
    if !dbg then
      (true, s1)
    else if s1.recursion_count_shadow_ = 1 then
      (true, { s1 with acquisition_count_ := s1.acquisition_count_ + 1 })
    else if s1.recursion_count_shadow_ = 2 ∧ s1.recursion_used_ = false then
      (true, { s1 with recursion_used_ := true })
    else
      (true, s1)
  else
    (false, s)

/-- `Lock::GetCurrentThreadRecursionCount()`: returns the recursion count,
the lock state after the call, and whether the debug `DCHECK(temp >= 1)`
fired.  In the instrumented build the body performs `lock_.Lock()`, reads
`recursion_count_shadow_` into `temp`, performs `lock_.Unlock()` (a reentrant
pair on the raw mutex, so the hold depth is restored and no counter is
touched), checks `temp >= 1`, and finally returns `recursion_count_shadow_`.
In the `NDEBUG` build it is a bare field read. -/
def Lock.GetCurrentThreadRecursionCount (dbg : Bool) (s : Lock) : Int × Lock × Bool :=
  if dbg then
    let temp := s.recursion_count_shadow_
    (s.recursion_count_shadow_,
     { s with mutexDepth := s.mutexDepth + 1 - 1 },
     decide (temp < 1))
  else
    (s.recursion_count_shadow_, s, false)

/-- The `DCHECK(0 == final_recursion_count)` of the destructor `Lock::~Lock()`;
the destructor reads the count under a reentrant lock and unlock pair and
checks it only in the instrumented build, and performs no check at all in the
`NDEBUG` build. -/
def Lock.destructorDcheckFails (dbg : Bool) (s : Lock) : Bool :=
  dbg && decide (¬ s.recursion_count_shadow_ = 0)

/-- Apply `Lock::Release()` to the state `n` times. -/
def releaseN : Nat → Lock → Lock
  | 0, s => s
  | n + 1, s => releaseN n (Lock.Release s)

/-- Apply `Lock::Acquire()` to the state `n` times with no contention from
other threads (each non-blocking attempt succeeds). -/
def acquireN (dbg : Bool) : Nat → Lock → Lock
  | 0, s => s
  | n + 1, s => acquireN dbg n (Lock.Acquire dbg false s)

/-- The `AutoUnlock` helper object: its only member is `release_count_`
(a signed integer in the source). -/
structure AutoUnlock where
  release_count_ : Int
  deriving Repr, DecidableEq

/-- `AutoUnlock::AutoUnlock(Lock&)`: fetches the recursion count via
`GetCurrentThreadRecursionCount`, checks `DCHECK(count > 0)` (instrumented
build only), then runs `while (count-- > 0) { release_count_++; Release(); }`,
so `Release` runs `count.toNat` times and `release_count_` ends at that
number.  Returns the helper, the lock state after the releases, and whether
any debug assertion fired during construction. -/
def AutoUnlock.construct (dbg : Bool) (s : Lock) : AutoUnlock × Lock × Bool :=
  let r := Lock.GetCurrentThreadRecursionCount dbg s
  let count := r.1
  let fired := r.2.2 || (dbg && decide (¬ 0 < count))
  (⟨(count.toNat : Int)⟩, releaseN count.toNat r.2.1, fired)

/-- `AutoUnlock::~AutoUnlock()`: checks `DCHECK(release_count_ >= 0)`
(instrumented build only) then runs `while (release_count_-- > 0) Acquire();`,
acquiring `release_count_.toNat` times; the claims concern the case with no
intervening activity from other threads, so each reacquire is uncontended.
Returns the lock state after the reacquires and whether the assertion
fired. -/
def AutoUnlock.destruct (dbg : Bool) (a : AutoUnlock) (s : Lock) : Lock × Bool :=
  (acquireN dbg a.release_count_.toNat s, dbg && decide (a.release_count_ < 0))

/-- One operation of a trace against the lock; the oracle bit on the
acquiring operations says whether another thread transiently held the raw
mutex at the moment of the non-blocking attempt. -/
inductive LockOp
  | acquire (otherHolds : Bool)
  | tryAcquire (otherHolds : Bool)
  | release
  deriving Repr, DecidableEq

/-- Execute one trace operation. -/
def step (dbg : Bool) (s : Lock) : LockOp → Lock
  | .acquire oh => Lock.Acquire dbg oh s
  | .tryAcquire oh => (Lock.Try dbg oh s).2
  | .release => Lock.Release s

/-- Execute a trace of operations from a given state. -/
def run (dbg : Bool) (ops : List LockOp) (s : Lock) : Lock :=
  ops.foldl (step dbg) s

end LockCC

namespace LockCC

theorem Acquire_count (dbg oh : Bool) (s : Lock) :
    (Lock.Acquire dbg oh s).recursion_count_shadow_ = s.recursion_count_shadow_ + 1 := by
  cases dbg <;> simp only [Lock.Acquire, Bool.not_true, Bool.not_false, if_true, if_false,
    Bool.false_eq_true, Bool.true_eq_false, ite_true, ite_false] <;> split_ifs <;> rfl

theorem Acquire_depth (dbg oh : Bool) (s : Lock) :
    (Lock.Acquire dbg oh s).mutexDepth = s.mutexDepth + 1 := by
  cases dbg <;> simp only [Lock.Acquire, Bool.not_true, Bool.not_false, if_true, if_false,
    Bool.false_eq_true, Bool.true_eq_false, ite_true, ite_false] <;> split_ifs <;> rfl

theorem Acquire_ndebug (oh : Bool) (s : Lock) :
    Lock.Acquire false oh s =
      { s with mutexDepth := s.mutexDepth + 1
               recursion_count_shadow_ := s.recursion_count_shadow_ + 1 } := rfl

theorem Acquire_contention (oh : Bool) (s : Lock) :
    (Lock.Acquire true oh s).contention_count_ =
      (if mutexTryOk oh s then s.contention_count_ else s.contention_count_ + 1) := by
  simp only [Lock.Acquire, Bool.not_true, Bool.false_eq_true, ite_false, if_false]
  split_ifs <;> rfl

theorem Acquire_acquisition (oh : Bool) (s : Lock) :
    (Lock.Acquire true oh s).acquisition_count_ =
      (if s.recursion_count_shadow_ = 0 then s.acquisition_count_ + 1
       else s.acquisition_count_) := by
  obtain ⟨m, c, a, ct, u⟩ := s
  simp only [Lock.Acquire, Bool.not_true, Bool.false_eq_true, ite_false, if_false]
  split_ifs <;> simp_all <;> omega

theorem Acquire_used (oh : Bool) (s : Lock) :
    (Lock.Acquire true oh s).recursion_used_ =
      (s.recursion_used_ || decide (s.recursion_count_shadow_ = 1)) := by
  obtain ⟨m, c, a, ct, u⟩ := s
  simp only [Lock.Acquire, Bool.not_true, Bool.false_eq_true, ite_false, if_false]
  split_ifs <;> simp_all <;> omega

theorem Try_eq (dbg oh : Bool) (s : Lock) :
    Lock.Try dbg oh s =
      (if mutexTryOk oh s then (true, Lock.Acquire dbg false s) else (false, s)) := by
  cases dbg <;>
    simp only [Lock.Try, Lock.Acquire, mutexTryOk, Bool.not_false, Bool.or_true,
      Bool.not_true, Bool.false_eq_true, Bool.true_eq_false, ite_true, ite_false] <;>
    split_ifs <;> rfl

/-! ### Lemmas about iterated operations -/

theorem releaseN_fields (n : Nat) (s : Lock) :
    (releaseN n s).recursion_count_shadow_ = s.recursion_count_shadow_ - n ∧
    (releaseN n s).mutexDepth = s.mutexDepth - n ∧
    (releaseN n s).acquisition_count_ = s.acquisition_count_ ∧
    (releaseN n s).contention_count_ = s.contention_count_ ∧
    (releaseN n s).recursion_used_ = s.recursion_used_ := by
  induction n generalizing s with
  | zero => simp [releaseN]
  | succ n ih =>
    obtain ⟨h1, h2, h3, h4, h5⟩ := ih (Lock.Release s)
    simp only [releaseN]
    rw [h1, h2, h3, h4, h5]
    simp only [Lock.Release]
    refine ⟨by omega, by omega, by trivial, by trivial, by trivial⟩

theorem acquireN_fields (dbg : Bool) (n : Nat) (s : Lock) :
    (acquireN dbg n s).recursion_count_shadow_ = s.recursion_count_shadow_ + n ∧
    (acquireN dbg n s).mutexDepth = s.mutexDepth + n := by
  induction n generalizing s with
  | zero => simp [acquireN]
  | succ n ih =>
    have h := ih (Lock.Acquire dbg false s)
    simp only [acquireN]
    constructor
    · rw [h.1, Acquire_count]; omega
    · rw [h.2, Acquire_depth]; omega

theorem foldl_Acquire_fields (dbg : Bool) (cs : List Bool) (s : Lock) :
    ((cs.foldl (fun t c => Lock.Acquire dbg c t) s).recursion_count_shadow_ =
        s.recursion_count_shadow_ + cs.length) ∧
    ((cs.foldl (fun t c => Lock.Acquire dbg c t) s).mutexDepth =
        s.mutexDepth + cs.length) := by
  induction cs generalizing s with
  | nil => simp
  | cons c cs ih =>
    have h := ih (Lock.Acquire dbg c s)
    simp only [List.foldl_cons, List.length_cons]
    constructor
    · rw [h.1, Acquire_count]; omega
    · rw [h.2, Acquire_depth]; omega

theorem getCount_held (dbg : Bool) (d : Int) (s : Lock)
    (hd : 1 ≤ d) (hc : s.recursion_count_shadow_ = d) :
    Lock.GetCurrentThreadRecursionCount dbg s = (d, s, false) := by
  cases dbg
  · simp [Lock.GetCurrentThreadRecursionCount, hc]
  · simp only [Lock.GetCurrentThreadRecursionCount, if_true]
    refine Prod.ext hc (Prod.ext ?_ ?_)
    · cases s
      simp
    · simp only [hc]
      simp
      omega

/-! ### Claim theorems -/

/-- C1: in an instrumented build, `Acquire` first attempts a non-blocking
try-acquire of the mutex; if that attempt fails it performs a blocking
acquire and increments `contention_count_` by exactly 1; in either case it
then increments `recursion_count_shadow_` by 1, increments
`acquisition_count_` by 1 iff the new depth is 1, and sets `recursion_used_`
iff the new depth is 2 or it was already set.  In a non-instrumented build,
`Acquire` performs a blocking acquire and increments the recursion count,
changing no other state. -/
theorem C1_acquire_contract (oh : Bool) (s : Lock) :
    ((Lock.Acquire true oh s).recursion_count_shadow_ = s.recursion_count_shadow_ + 1) ∧
    ((Lock.Acquire true oh s).mutexDepth = s.mutexDepth + 1) ∧
    ((Lock.Acquire true oh s).contention_count_ =
       (if mutexTryOk oh s then s.contention_count_ else s.contention_count_ + 1)) ∧
    ((Lock.Acquire true oh s).acquisition_count_ =
       (if (Lock.Acquire true oh s).recursion_count_shadow_ = 1
        then s.acquisition_count_ + 1 else s.acquisition_count_)) ∧
    ((Lock.Acquire true oh s).recursion_used_ =
       (s.recursion_used_ || decide ((Lock.Acquire true oh s).recursion_count_shadow_ = 2))) ∧
    (Lock.Acquire false oh s =
       { s with mutexDepth := s.mutexDepth + 1
                recursion_count_shadow_ := s.recursion_count_shadow_ + 1 }) := by
  refine ⟨Acquire_count true oh s, Acquire_depth true oh s, Acquire_contention oh s,
    ?_, ?_, Acquire_ndebug oh s⟩
  · rw [Acquire_count, Acquire_acquisition]
    by_cases h : s.recursion_count_shadow_ = 0
    · rw [if_pos h, if_pos (by omega)]
    · rw [if_neg h, if_neg (by omega)]
  · rw [Acquire_count, Acquire_used]
    congr 1
    simp only [decide_eq_decide]
    omega

/-- C4: `Try` attempts the primitive non-blocking acquire and returns whether
the lock was obtained; on success the new state is exactly that of an
uncontended `Acquire` (the same recursion-count, acquisition-count and
recursion-used bookkeeping) and `contention_count_` is never incremented; on
failure it returns `false` and leaves the state unchanged. -/
theorem C4_try_contract (dbg oh : Bool) (s : Lock) :
    (Lock.Try dbg oh s =
       (if mutexTryOk oh s then (true, Lock.Acquire dbg false s) else (false, s))) ∧
    ((Lock.Try dbg oh s).2.contention_count_ = s.contention_count_) := by
  refine ⟨Try_eq dbg oh s, ?_⟩
  rw [Try_eq]
  by_cases h : mutexTryOk oh s = true
  · rw [if_pos h]
    cases dbg
    · rw [Acquire_ndebug]
    · rw [Acquire_contention, if_pos (by simp [mutexTryOk])]
  · rw [if_neg h]

/-- C6: in an instrumented build, a step increments `acquisition_count_` by
exactly 1 iff it is an `Acquire` or successful `Try` that takes the
recursion count from 0 to 1; no deeper transition increments it, and
`Release` and `GetCurrentThreadRecursionCount` leave it unchanged. -/
theorem C6_acquisition_transitions (oh : Bool) (s : Lock) :
    ((Lock.Acquire true oh s).acquisition_count_ =
       (if s.recursion_count_shadow_ = 0 ∧
           (Lock.Acquire true oh s).recursion_count_shadow_ = 1
        then s.acquisition_count_ + 1 else s.acquisition_count_)) ∧
    ((Lock.Try true oh s).2.acquisition_count_ =
       (if (Lock.Try true oh s).1 = true ∧ s.recursion_count_shadow_ = 0
        then s.acquisition_count_ + 1 else s.acquisition_count_)) ∧
    ((Lock.Release s).acquisition_count_ = s.acquisition_count_) ∧
    ((Lock.GetCurrentThreadRecursionCount true s).2.1.acquisition_count_ =
       s.acquisition_count_) := by
  refine ⟨?_, ?_, by trivial, by trivial⟩
  · rw [Acquire_acquisition, Acquire_count]
    by_cases h : s.recursion_count_shadow_ = 0
    · rw [if_pos h, if_pos ⟨h, by omega⟩]
    · rw [if_neg h, if_neg (by intro hcon; exact h hcon.1)]
  · rw [Try_eq]
    by_cases h : mutexTryOk oh s = true <;>
      by_cases h0 : s.recursion_count_shadow_ = 0 <;>
        simp [h, h0, Acquire_acquisition]

/-- C9: in an instrumented build, destroying a lock with a nonzero recursion
count fires the destructor assertion and destroying it at zero does not; in
a non-instrumented build the destructor performs no check at all. -/
theorem C9_destructor_check (s : Lock) :
    (Lock.destructorDcheckFails true s = true ↔ ¬ s.recursion_count_shadow_ = 0) ∧
    (Lock.destructorDcheckFails false s = false) :=
  ⟨by simp [Lock.destructorDcheckFails], rfl⟩

/-- C7: called by the thread holding the lock at depth d ≥ 1,
`GetCurrentThreadRecursionCount` returns d, leaves the entire lock state
(recursion count, both lifetime counters, the latch, and the mutex hold
depth) unchanged, and fires no assertion; in particular its internal
instrumented lock and unlock pair touches no counter. -/
theorem C7_get_count_frame (dbg : Bool) (d : Int) (s : Lock)
    (hd : 1 ≤ d) (hc : s.recursion_count_shadow_ = d) :
    Lock.GetCurrentThreadRecursionCount dbg s = (d, s, false) :=
  getCount_held dbg d s hd hc

theorem C7_get_count_frame_witness :
    (1 : Int) ≤ 1 ∧
    ({ mutexDepth := 1, recursion_count_shadow_ := 1, acquisition_count_ := 1,
       contention_count_ := 0, recursion_used_ := false } : Lock).recursion_count_shadow_ = 1 ∧
    Lock.GetCurrentThreadRecursionCount true
      { mutexDepth := 1, recursion_count_shadow_ := 1, acquisition_count_ := 1,
        contention_count_ := 0, recursion_used_ := false } =
      (1, { mutexDepth := 1, recursion_count_shadow_ := 1, acquisition_count_ := 1,
            contention_count_ := 0, recursion_used_ := false }, false) :=
  ⟨by decide, by decide,
   C7_get_count_frame true 1
     { mutexDepth := 1, recursion_count_shadow_ := 1, acquisition_count_ := 1,
       contention_count_ := 0, recursion_used_ := false } (by decide) (by decide)⟩

/-- C8 counterexample: on a freshly constructed lock (recursion count 0), the
instrumented `GetCurrentThreadRecursionCount` fires its `DCHECK(temp >= 1)`,
so the claim that no build configuration raises a fatal assertion for a
non-holding caller is false. -/
theorem C8_counterexample :
    (Lock.GetCurrentThreadRecursionCount true Lock.init).2.2 = true := by decide

/-- C8 amended: calling `GetCurrentThreadRecursionCount` with recursion count
0 yields the unspecified bare read without any error signal only in a
non-instrumented build; in an instrumented build the `DCHECK(temp >= 1)`
fatal assertion fires (while the call still returns the field value). -/
theorem C8_nonholding_amended (s : Lock) (h : s.recursion_count_shadow_ = 0) :
    (Lock.GetCurrentThreadRecursionCount false s = (0, s, false)) ∧
    ((Lock.GetCurrentThreadRecursionCount true s).2.2 = true) := by
  constructor
  · simp [Lock.GetCurrentThreadRecursionCount, h]
  · simp [Lock.GetCurrentThreadRecursionCount, h]

theorem C8_nonholding_amended_witness :
    Lock.init.recursion_count_shadow_ = 0 ∧
    ((Lock.GetCurrentThreadRecursionCount false Lock.init = (0, Lock.init, false)) ∧
     ((Lock.GetCurrentThreadRecursionCount true Lock.init).2.2 = true)) :=
  ⟨by decide, C8_nonholding_amended Lock.init (by decide)⟩

/-- C10: in a non-instrumented build, constructing and destroying an
`AutoUnlock` over a lock whose recursion count is 0 is a silent no-op: the
captured count is 0, so `release_count_` stays 0, no `Release` or `Acquire`
runs, the state is unchanged and no fault is raised. -/
theorem C10_autounlock_depth_zero_noop (s : Lock) (h : s.recursion_count_shadow_ = 0) :
    (AutoUnlock.construct false s = (⟨0⟩, s, false)) ∧
    (AutoUnlock.destruct false ⟨0⟩ s = (s, false)) := by
  constructor
  · simp [AutoUnlock.construct, Lock.GetCurrentThreadRecursionCount, h, releaseN]
  · simp [AutoUnlock.destruct, acquireN]

theorem C10_autounlock_depth_zero_noop_witness :
    Lock.init.recursion_count_shadow_ = 0 ∧
    ((AutoUnlock.construct false Lock.init = (⟨0⟩, Lock.init, false)) ∧
     (AutoUnlock.destruct false ⟨0⟩ Lock.init = (Lock.init, false))) :=
  ⟨by decide, C10_autounlock_depth_zero_noop Lock.init (by decide)⟩

/-- C2: for k ≥ 1, a sequence of k `Acquire` calls by one thread (under any
pattern of transient contention) starting from a fully unlocked state leaves
the recursion count at k, and k matching `Release` calls return it to 0 with
the platform mutex no longer held. -/
theorem C2_balanced_acquire_release (k : Nat) (dbg : Bool) (cs : List Bool) (s : Lock)
    (hk : 1 ≤ k) (hlen : cs.length = k)
    (hc : s.recursion_count_shadow_ = 0) (hm : s.mutexDepth = 0) :
    ((cs.foldl (fun t c => Lock.Acquire dbg c t) s).recursion_count_shadow_ = k) ∧
    ((releaseN k (cs.foldl (fun t c => Lock.Acquire dbg c t) s)).recursion_count_shadow_ = 0) ∧
    ((releaseN k (cs.foldl (fun t c => Lock.Acquire dbg c t) s)).mutexDepth = 0) := by
  obtain ⟨h1, h2⟩ := foldl_Acquire_fields dbg cs s
  obtain ⟨r1, r2, -, -, -⟩ :=
    releaseN_fields k (cs.foldl (fun t c => Lock.Acquire dbg c t) s)
  refine ⟨?_, ?_, ?_⟩
  · rw [h1, hc, hlen]
    omega
  · rw [r1, h1, hc, hlen]
    omega
  · rw [r2, h2, hm, hlen]
    omega

theorem C2_balanced_acquire_release_witness :
    1 ≤ 2 ∧ ([true, false] : List Bool).length = 2 ∧
    Lock.init.recursion_count_shadow_ = 0 ∧ Lock.init.mutexDepth = 0 ∧
    (((([true, false] : List Bool).foldl
         (fun t c => Lock.Acquire true c t) Lock.init).recursion_count_shadow_ = 2) ∧
     ((releaseN 2 (([true, false] : List Bool).foldl
         (fun t c => Lock.Acquire true c t) Lock.init)).recursion_count_shadow_ = 0) ∧
     ((releaseN 2 (([true, false] : List Bool).foldl
         (fun t c => Lock.Acquire true c t) Lock.init)).mutexDepth = 0)) :=
  ⟨by decide, by decide, by decide, by decide,
   C2_balanced_acquire_release 2 true [true, false] Lock.init
     (by decide) (by decide) (by decide) (by decide)⟩

/-- C3: constructing an `AutoUnlock` over a lock held by the calling thread
at depth d ≥ 1 captures d as `release_count_`, releases down to recursion
count 0 with the mutex fully unlocked and fires no assertion; destroying it
reacquires `release_count_` times with no intervening activity from other
threads, restoring the recursion count to exactly d (and the mutex hold
depth to its original value) without firing an assertion. -/
theorem C3_autounlock_round_trip (dbg : Bool) (d : Int) (s : Lock)
    (hd : 1 ≤ d) (hc : s.recursion_count_shadow_ = d) (hm : (s.mutexDepth : Int) = d) :
    ((AutoUnlock.construct dbg s).1.release_count_ = d) ∧
    ((AutoUnlock.construct dbg s).2.1.recursion_count_shadow_ = 0) ∧
    ((AutoUnlock.construct dbg s).2.1.mutexDepth = 0) ∧
    ((AutoUnlock.construct dbg s).2.2 = false) ∧
    ((AutoUnlock.destruct dbg (AutoUnlock.construct dbg s).1
        (AutoUnlock.construct dbg s).2.1).1.recursion_count_shadow_ = d) ∧
    ((AutoUnlock.destruct dbg (AutoUnlock.construct dbg s).1
        (AutoUnlock.construct dbg s).2.1).1.mutexDepth = s.mutexDepth) ∧
    ((AutoUnlock.destruct dbg (AutoUnlock.construct dbg s).1
        (AutoUnlock.construct dbg s).2.1).2 = false) := by
  have hg := getCount_held dbg d s hd hc
  have hcon : AutoUnlock.construct dbg s =
      (⟨(d.toNat : Int)⟩, releaseN d.toNat s, false) := by
    simp only [AutoUnlock.construct, hg]
    refine Prod.ext rfl (Prod.ext rfl ?_)
    simp only
    rw [Bool.false_or, decide_eq_false (by omega : ¬ ¬ 0 < d), Bool.and_false]
  obtain ⟨q1, q2, -, -, -⟩ := releaseN_fields d.toNat s
  have hq1 : (releaseN d.toNat s).recursion_count_shadow_ = 0 := by
    rw [q1, hc]
    omega
  have hq2 : (releaseN d.toNat s).mutexDepth = 0 := by
    rw [q2]
    omega
  obtain ⟨a1, a2⟩ := acquireN_fields dbg d.toNat (releaseN d.toNat s)
  refine ⟨?_, ?_, ?_, ?_, ?_, ?_, ?_⟩
  · rw [hcon]
    show (d.toNat : Int) = d
    omega
  · rw [hcon]
    exact hq1
  · rw [hcon]
    exact hq2
  · rw [hcon]
  · rw [hcon]
    simp only [AutoUnlock.destruct, Int.toNat_ofNat]
    rw [a1, hq1]
    omega
  · rw [hcon]
    simp only [AutoUnlock.destruct, Int.toNat_ofNat]
    rw [a2, hq2]
    omega
  · rw [hcon]
    simp only [AutoUnlock.destruct]
    rw [decide_eq_false (by omega : ¬ ((d.toNat : Int) < 0)), Bool.and_false]

theorem C3_autounlock_round_trip_witness :
    (1 : Int) ≤ 2 ∧
    ((⟨2, 2, 1, 0, true⟩ : Lock).recursion_count_shadow_ = 2) ∧
    (((⟨2, 2, 1, 0, true⟩ : Lock).mutexDepth : Int) = 2) ∧
    (((AutoUnlock.construct true (⟨2, 2, 1, 0, true⟩ : Lock)).1.release_count_ = 2) ∧
     ((AutoUnlock.construct true (⟨2, 2, 1, 0, true⟩ : Lock)).2.1.recursion_count_shadow_ = 0) ∧
     ((AutoUnlock.construct true (⟨2, 2, 1, 0, true⟩ : Lock)).2.1.mutexDepth = 0) ∧
     ((AutoUnlock.construct true (⟨2, 2, 1, 0, true⟩ : Lock)).2.2 = false) ∧
     ((AutoUnlock.destruct true (AutoUnlock.construct true (⟨2, 2, 1, 0, true⟩ : Lock)).1
         (AutoUnlock.construct true (⟨2, 2, 1, 0, true⟩ : Lock)).2.1).1.recursion_count_shadow_ = 2) ∧
     ((AutoUnlock.destruct true (AutoUnlock.construct true (⟨2, 2, 1, 0, true⟩ : Lock)).1
         (AutoUnlock.construct true (⟨2, 2, 1, 0, true⟩ : Lock)).2.1).1.mutexDepth =
        (⟨2, 2, 1, 0, true⟩ : Lock).mutexDepth) ∧
     ((AutoUnlock.destruct true (AutoUnlock.construct true (⟨2, 2, 1, 0, true⟩ : Lock)).1
         (AutoUnlock.construct true (⟨2, 2, 1, 0, true⟩ : Lock)).2.1).2 = false)) :=
  ⟨by decide, by decide, by decide,
   C3_autounlock_round_trip true 2 (⟨2, 2, 1, 0, true⟩ : Lock)
     (by decide) (by decide) (by decide)⟩

/-! ### Trace lemmas for the recursion-used latch -/

theorem run_append_singleton (dbg : Bool) (ops : List LockOp) (op : LockOp) (s : Lock) :
    run dbg (ops ++ [op]) s = step dbg (run dbg ops s) op := by
  simp [run, List.foldl_append]

theorem exists_take_count_append (ops : List LockOp) (op : LockOp) :
    (∃ n, (run true (List.take n (ops ++ [op])) Lock.init).recursion_count_shadow_ = 2) ↔
      ((∃ n, (run true (List.take n ops) Lock.init).recursion_count_shadow_ = 2) ∨
       (run true (ops ++ [op]) Lock.init).recursion_count_shadow_ = 2) := by
  constructor
  · rintro ⟨n, hn⟩
    rcases le_or_lt n ops.length with h | h
    · exact Or.inl ⟨n, by rwa [List.take_append_of_le_length h] at hn⟩
    · refine Or.inr ?_
      rwa [List.take_of_length_le (by simp; omega)] at hn
  · rintro (⟨n, hn⟩ | h)
    · rcases le_or_lt n ops.length with hle | hlt
      · exact ⟨n, by rwa [List.take_append_of_le_length hle]⟩
      · refine ⟨ops.length, ?_⟩
        rw [List.take_append_of_le_length le_rfl, List.take_length]
        rwa [List.take_of_length_le (by omega)] at hn
    · exact ⟨(ops ++ [op]).length, by rwa [List.take_length]⟩

theorem run_used_characterisation (ops : List LockOp) :
    ((run true ops Lock.init).recursion_used_ = true ↔
      ∃ n, (run true (List.take n ops) Lock.init).recursion_count_shadow_ = 2) ∧
    (2 ≤ (run true ops Lock.init).recursion_count_shadow_ →
      (run true ops Lock.init).recursion_used_ = true) := by
  induction ops using List.reverseRecOn with
  | nil =>
    refine ⟨⟨fun h => absurd h (by decide), ?_⟩, fun h => absurd h (by decide)⟩
    rintro ⟨n, hn⟩
    rw [List.take_nil] at hn
    exact absurd hn (by decide)
  | append_singleton ops op ih =>
    obtain ⟨ih1, ih2⟩ := ih
    rw [run_append_singleton, exists_take_count_append, run_append_singleton]
    cases op with
    | acquire oh =>
      simp only [step]
      constructor
      · rw [Acquire_used, Acquire_count, Bool.or_eq_true, decide_eq_true_iff, ih1]
        exact or_congr Iff.rfl (by omega)
      · rw [Acquire_count, Acquire_used]
        intro h
        rcases eq_or_ne (run true ops Lock.init).recursion_count_shadow_ 1 with h1 | h1
        · simp [h1]
        · have hu := ih2 (by omega)
          simp [hu]
    | tryAcquire oh =>
      simp only [step]
      rw [Try_eq]
      by_cases hmt : mutexTryOk oh (run true ops Lock.init) = true
      · rw [if_pos hmt]
        simp only
        constructor
        · rw [Acquire_used, Acquire_count, Bool.or_eq_true, decide_eq_true_iff, ih1]
          exact or_congr Iff.rfl (by omega)
        · rw [Acquire_count, Acquire_used]
          intro h
          rcases eq_or_ne (run true ops Lock.init).recursion_count_shadow_ 1 with h1 | h1
          · simp [h1]
          · have hu := ih2 (by omega)
            simp [hu]
      · rw [if_neg hmt]
        simp only
        constructor
        · rw [ih1]
          refine ⟨Or.inl, ?_⟩
          rintro (h | h)
          · exact h
          · exact ih1.mp (ih2 (by omega))
        · exact ih2
    | release =>
      simp only [step, Lock.Release]
      constructor
      · rw [ih1]
        refine ⟨Or.inl, ?_⟩
        rintro (h | h)
        · exact h
        · exact ih1.mp (ih2 (by omega))
      · intro h
        exact ih2 (by omega)

/-- C5: in an instrumented build, over any trace of `Acquire`, `Try` and
`Release` operations from a fresh lock, `recursion_used_` is set exactly when
some prefix of the trace has brought the recursion count to 2: it latches at
the first operation that makes the count reach 2 and never becomes false
again, whatever later operations do. -/
theorem C5_recursion_used_latch (ops : List LockOp) :
    (run true ops Lock.init).recursion_used_ = true ↔
      ∃ n, (run true (List.take n ops) Lock.init).recursion_count_shadow_ = 2 :=
  (run_used_characterisation ops).1

end LockCC
